import Mathlib

/-
Verification of `third_party/renderman-24/plugin/hdPrman/cameraContext.cpp`
(class `HdPrmanCameraContext`).

Shallow embedding conventions:
* C++ `float`/`double` arithmetic is modelled exactly over `ℚ`.
* `SdfPath` (camera identity) is modelled as `String`; the default-constructed
  path is the empty string.
* The Riley render-engine session is modelled as an explicit state carrying a
  fresh-handle counter and an ordered log of the API calls issued.
* `TF_CODING_ERROR` is modelled as a boolean "a coding error was reported"
  component of the affected function's result.
* Square roots (`GfVec3f::GetLength`) are not rational; the length is passed to
  the embedded function as an explicit argument, constrained in the theorems by
  `0 ≤ len` and `len ^ 2 = x ^ 2 + y ^ 2 + z ^ 2`.
-/

/-! ## Basic Gf types -/

/-- Source `GfVec2d` / `GfVec2f`, modelled over `ℚ`. -/
structure GfVec2 where
  x : ℚ
  y : ℚ
deriving DecidableEq

instance : Add GfVec2 := ⟨fun a b => ⟨a.x + b.x, a.y + b.y⟩⟩
instance : HMul ℚ GfVec2 GfVec2 := ⟨fun c v => ⟨c * v.x, c * v.y⟩⟩

/-- Source `GfVec2i` (integer vector, e.g. render buffer size). -/
structure GfVec2i where
  x : ℤ
  y : ℤ
deriving DecidableEq

/-- Source `GfVec3f`, modelled over `ℚ`. -/
structure GfVec3 where
  x : ℚ
  y : ℚ
  z : ℚ
deriving DecidableEq

/-- Source `GfVec4d` / `GfVec4f`, modelled over `ℚ`. -/
structure GfVec4 where
  x : ℚ
  y : ℚ
  z : ℚ
  w : ℚ
deriving DecidableEq

/-- Source `GfRange2d` / `GfRange2f`: a 2d range given by min and max corners. -/
structure GfRange2 where
  min : GfVec2
  max : GfVec2
deriving DecidableEq

/-- Source `GfRange2d::GetSize()`. -/
def GfRange2.GetSize (r : GfRange2) : GfVec2 :=
  ⟨r.max.x - r.min.x, r.max.y - r.min.y⟩

/-- Source `GfRange2d::operator/` by a scalar (divides both corners). -/
instance : HDiv GfRange2 ℚ GfRange2 :=
  ⟨fun r c => ⟨⟨r.min.x / c, r.min.y / c⟩, ⟨r.max.x / c, r.max.y / c⟩⟩⟩

/-- Source `GfRange1f` (clipping range). -/
structure GfRange1 where
  min : ℚ
  max : ℚ
deriving DecidableEq

/-- Source `GfRect2i` (integer rectangle; the data window of the framing). -/
structure GfRect2i where
  minX : ℤ
  minY : ℤ
  maxX : ℤ
  maxY : ℤ
deriving DecidableEq

/-- Source `GfClamp`. -/
def GfClamp (value lo hi : ℚ) : ℚ :=
  if value < lo then lo else if value > hi then hi else value

/-- Matrices of size 4×4 (`GfMatrix4d` / `RtMatrix4x4`), modelled over `ℚ`. -/
abbrev M4 := Matrix (Fin 4) (Fin 4) ℚ

/-! ## Scene-facing data model -/

/-- Source `HdCamera::Projection`. -/
inductive Projection where
  | Perspective
  | Orthographic
deriving DecidableEq

/-- Source `HdTimeSampleArray<GfMatrix4d, HDPRMAN_MAX_TIME_SAMPLES>`: parallel lists
of sampled matrices and sample times (`count = values.length`). -/
structure HdTimeSampleArray where
  values : List M4
  times : List ℚ

/-- The scene camera (`HdPrmanCamera`), with the read accessors used by
`cameraContext.cpp`.  `id` is `GetId()` (an `SdfPath`). -/
structure HdPrmanCamera where
  id : String
  projection : Projection
  horizontalAperture : ℚ
  verticalAperture : ℚ
  horizontalApertureOffset : ℚ
  verticalApertureOffset : ℚ
  focalLength : ℚ
  fStop : ℚ
  focusDistance : ℚ
  clippingRange : GfRange1
  clipPlanes : List GfVec4
  timeSampleXforms : HdTimeSampleArray

/-- Source `CameraUtilConformWindowPolicy`. -/
inductive CameraUtilConformWindowPolicy where
  | Fit
  | Crop
  | MatchVertically
  | MatchHorizontally
deriving DecidableEq

/-- Source `CameraUtilFraming`. -/
structure CameraUtilFraming where
  displayWindow : GfRange2
  dataWindow : GfRect2i
  pixelAspectRatio : ℚ
deriving DecidableEq

/-- Default-constructed `CameraUtilFraming` held by a fresh context.  Its
numeric content is irrelevant to the claims: the context only ever compares it
for (in)equality in `SetFraming`. -/
def defaultFraming : CameraUtilFraming :=
  ⟨⟨⟨0, 0⟩, ⟨0, 0⟩⟩, ⟨0, 0, 0, 0⟩, 1⟩

/-! ## The camera context state -/

/-- The mutable state of `HdPrmanCameraContext`. -/
structure HdPrmanCameraContext where
  _camera : Option HdPrmanCamera
  _cameraPath : String
  _framing : CameraUtilFraming
  _policy : CameraUtilConformWindowPolicy
  _invalid : Bool
  _clipPlaneIds : List ℕ
  _cameraId : ℕ

/-- The `HdPrmanCameraContext()` constructor: no camera, `CameraUtilFit`
policy, not invalid.  (`_cameraPath` defaults to the empty `SdfPath`,
`_clipPlaneIds` to the empty list.) -/
def initialContext : HdPrmanCameraContext :=
  { _camera := none
    _cameraPath := ""
    _framing := defaultFraming
    _policy := CameraUtilConformWindowPolicy.Fit
    _invalid := false
    _clipPlaneIds := []
    _cameraId := 0 }

namespace HdPrmanCameraContext

/-- Source `HdPrmanCameraContext::MarkCameraInvalid` (the argument may be null). -/
def MarkCameraInvalid (s : HdPrmanCameraContext) (camera : Option HdPrmanCamera) :
    HdPrmanCameraContext :=
  match camera with
  | some cam =>
      -- No need to invalidate if camera that is not the active camera changed.
      if cam.id = s._cameraPath then { s with _invalid := true } else s
  | none => s

/-- Source `HdPrmanCameraContext::SetCamera`. -/
def SetCamera (s : HdPrmanCameraContext) (camera : Option HdPrmanCamera) :
    HdPrmanCameraContext :=
  let s1 :=
    match camera with
    | some cam =>
        if s._cameraPath ≠ cam.id then
          { s with _invalid := true, _cameraPath := cam.id }
        else
          s
    | none =>
        -- If we had a camera and now have it no more, we need to invalidate
        -- since we need to return to the default camera.
        if s._camera.isSome then { s with _invalid := true } else s
  { s1 with _camera := camera }

/-- Source `HdPrmanCameraContext::SetFraming`. -/
def SetFraming (s : HdPrmanCameraContext) (framing : CameraUtilFraming) :
    HdPrmanCameraContext :=
  if s._framing ≠ framing then
    { s with _framing := framing, _invalid := true }
  else
    s

/-- Source `HdPrmanCameraContext::SetWindowPolicy`. -/
def SetWindowPolicy (s : HdPrmanCameraContext)
    (policy : CameraUtilConformWindowPolicy) : HdPrmanCameraContext :=
  if s._policy ≠ policy then
    { s with _policy := policy, _invalid := true }
  else
    s

/-- Source `HdPrmanCameraContext::IsInvalid`. -/
def IsInvalid (s : HdPrmanCameraContext) : Bool :=
  s._invalid

/-- Source `HdPrmanCameraContext::MarkValid`. -/
def MarkValid (s : HdPrmanCameraContext) : HdPrmanCameraContext :=
  { s with _invalid := false }

end HdPrmanCameraContext

/-! ## Call traces over the context -/

/-- One call to a state-mutating member of the context. -/
inductive CameraOp where
  | setCamera (c : Option HdPrmanCamera)
  | setFraming (f : CameraUtilFraming)
  | setWindowPolicy (p : CameraUtilConformWindowPolicy)
  | markValid
  | markCameraInvalid (c : Option HdPrmanCamera)

/-- Apply one call to the context state. -/
def applyOp (s : HdPrmanCameraContext) : CameraOp → HdPrmanCameraContext
  | CameraOp.setCamera c => s.SetCamera c
  | CameraOp.setFraming f => s.SetFraming f
  | CameraOp.setWindowPolicy p => s.SetWindowPolicy p
  | CameraOp.markValid => s.MarkValid
  | CameraOp.markCameraInvalid c => s.MarkCameraInvalid c

/-- Run a sequence of calls. -/
def runOps (s : HdPrmanCameraContext) (ops : List CameraOp) : HdPrmanCameraContext :=
  ops.foldl applyOp s

/-! ## Geometry functions (screen window, aspect, crop window, clip planes) -/

/-- Source `_GetScreenWindow`: compute the screen window for a given camera.
The filmback rectangle is `[-0.5*size + offset, +0.5*size + offset]`; it is
returned unmodified for an orthographic projection or a zero focal length and
divided by the focal length otherwise. -/
def _GetScreenWindow (cam : HdPrmanCamera) : GfRange2 :=
  let size : GfVec2 := ⟨cam.horizontalAperture, cam.verticalAperture⟩
  let offset : GfVec2 := ⟨cam.horizontalApertureOffset, cam.verticalApertureOffset⟩
  let filmbackPlane : GfRange2 := ⟨(-1/2 : ℚ) * size + offset, (1/2 : ℚ) * size + offset⟩
  if cam.projection = Projection.Orthographic then
    filmbackPlane
  else if cam.focalLength = 0 then
    filmbackPlane
  else
    filmbackPlane / cam.focalLength

/-- Source `_ConvertScreenWindowForDisplayWindowToRenderBuffer`: re-base the screen
window valid over the display window so that it is valid over the entire
render buffer. -/
def _ConvertScreenWindowForDisplayWindowToRenderBuffer
    (screenWindowForDisplayWindow : GfRange2)
    (displayWindow : GfRange2)
    (renderBufferSize : GfVec2i) : GfRange2 :=
  -- Scaling factors to go from image space to screen window space.
  let screenWindowWidthPerPixel :=
    screenWindowForDisplayWindow.GetSize.x / displayWindow.GetSize.x
  let screenWindowHeightPerPixel :=
    screenWindowForDisplayWindow.GetSize.y / displayWindow.GetSize.y
  -- What (0,0) in image space corresponds to in screen window space.
  -- Note that image space is y-Down and screen window space is y-Up.
  let screenWindowMin : GfVec2 :=
    ⟨screenWindowForDisplayWindow.min.x
        - screenWindowWidthPerPixel * displayWindow.min.x,
      screenWindowForDisplayWindow.max.y
        + screenWindowHeightPerPixel * (displayWindow.min.y - (renderBufferSize.y : ℚ))⟩
  let screenWindowSize : GfVec2 :=
    ⟨screenWindowWidthPerPixel * (renderBufferSize.x : ℚ),
      screenWindowHeightPerPixel * (renderBufferSize.y : ℚ)⟩
  ⟨screenWindowMin, screenWindowMin + screenWindowSize⟩

/-- Source `_SafeDiv`.  The C++ reports a `TF_CODING_ERROR` and returns `1.0` when
the denominator is zero; the boolean component records whether that coding
error was reported. -/
def _SafeDiv (a b : ℚ) : ℚ × Bool :=
  if b = 0 then
    (1, true)
  else
    (a / b, false)

/-- Source `_GetDisplayWindowAspect`: the aspect ratio of the display window taking
the pixel aspect ratio into account (value, coding-error-reported). -/
def _GetDisplayWindowAspect (framing : CameraUtilFraming) : ℚ × Bool :=
  let size := framing.displayWindow.GetSize
  let d := _SafeDiv size.x size.y
  (framing.pixelAspectRatio * d.1, d.2)

/-- Modelled from the spec: `CameraUtilConformedWindow` (from the repository's
`pxr/base/lib/cameraUtil`, not part of `src/`), following section 4.1
"ConformToAspect": *MatchHorizontally* keeps the horizontal extent and adjusts
the vertical extent (preserving its center) to match the target aspect;
*MatchVertically* keeps the vertical extent and adjusts the horizontal extent;
*Fit* expands the shorter axis (keep width if the window is wider than the
target aspect, else keep height); *Crop* shrinks the longer axis. -/
def CameraUtilConformedWindow (window : GfRange2)
    (policy : CameraUtilConformWindowPolicy) (targetAspect : ℚ) : GfRange2 :=
  let matchHorizontally : GfRange2 :=
    let height := if targetAspect = 0 then window.GetSize.y
                  else window.GetSize.x / targetAspect
    let centerY := (window.min.y + window.max.y) / 2
    ⟨⟨window.min.x, centerY - height / 2⟩, ⟨window.max.x, centerY + height / 2⟩⟩
  let matchVertically : GfRange2 :=
    let width := window.GetSize.y * targetAspect
    let centerX := (window.min.x + window.max.x) / 2
    ⟨⟨centerX - width / 2, window.min.y⟩, ⟨centerX + width / 2, window.max.y⟩⟩
  match policy with
  | CameraUtilConformWindowPolicy.MatchHorizontally => matchHorizontally
  | CameraUtilConformWindowPolicy.MatchVertically => matchVertically
  | CameraUtilConformWindowPolicy.Fit =>
      if window.GetSize.x > targetAspect * window.GetSize.y then
        matchHorizontally
      else
        matchVertically
  | CameraUtilConformWindowPolicy.Crop =>
      if window.GetSize.x > targetAspect * window.GetSize.y then
        matchVertically
      else
        matchHorizontally

/-- Source `_ToVec4f`: convert a window into the format expected by RenderMan
(xmin, xmax, ymin, ymax). -/
def _ToVec4f (window : GfRange2) : GfVec4 :=
  ⟨window.min.x, window.max.x, window.min.y, window.max.y⟩

/-- Source `_ComputeScreenWindow`: the screen window given to RenderMan, conforming
the camera frustum by the window policy and re-basing onto the render
buffer. -/
def _ComputeScreenWindow (camera : HdPrmanCamera) (framing : CameraUtilFraming)
    (policy : CameraUtilConformWindowPolicy) (renderBufferSize : GfVec2i) : GfVec4 :=
  -- Screen window from camera.
  let screenWindowForCamera := _GetScreenWindow camera
  -- Conform to match display window's aspect ratio.
  let screenWindowForDisplayWindow :=
    CameraUtilConformedWindow screenWindowForCamera policy
      (_GetDisplayWindowAspect framing).1
  -- Compute screen window we need to send to RenderMan.
  let screenWindowForRenderBuffer :=
    _ConvertScreenWindowForDisplayWindowToRenderBuffer
      screenWindowForDisplayWindow framing.displayWindow renderBufferSize
  _ToVec4f screenWindowForRenderBuffer

/-- Source `_DivRoundDown`: crop-window component with a slight negative bias
(`0.0078125 = 1/128`) to counteract the renderer's subsequent `ceil`. -/
def _DivRoundDown (a b : ℤ) : ℚ :=
  GfClamp (((a : ℚ) - 1/128) / (b : ℚ)) 0 1

/-- Source `_ComputeCropWindow`: crop window from data window and render buffer
size, as (xmin, xmax, ymin, ymax). -/
def _ComputeCropWindow (dataWindow : GfRect2i) (renderBufferSize : GfVec2i) :
    GfVec4 :=
  ⟨_DivRoundDown dataWindow.minX renderBufferSize.x,
    _DivRoundDown (dataWindow.maxX + 1) renderBufferSize.x,
    _DivRoundDown dataWindow.minY renderBufferSize.y,
    _DivRoundDown (dataWindow.maxY + 1) renderBufferSize.y⟩

/-- The clip-plane parameter bundle handed to `Riley::CreateClippingPlane`
(`planeNormal`, `planeOrigin`). -/
structure ClipPlaneParams where
  planeNormal : GfVec3
  planeOrigin : GfVec3
deriving DecidableEq

/-- Source `_ToClipPlaneParams`.  The C++ computes
`directionLength = direction.GetLength()`, i.e. `√(x² + y² + z²)`, which is
not rational; the embedding takes the length as an explicit argument, and the
theorems constrain it by `0 ≤ directionLength` and
`directionLength ^ 2 = x ^ 2 + y ^ 2 + z ^ 2`.  Returns `none` exactly when
the C++ returns `false` (degenerate plane, no parameters produced). -/
def _ToClipPlaneParams (plane : GfVec4) (directionLength : ℚ) :
    Option ClipPlaneParams :=
  if directionLength = 0 then
    none
  else
    -- Riley API expects a unit-length normal.
    let norm : GfVec3 :=
      ⟨plane.x / directionLength, plane.y / directionLength,
        plane.z / directionLength⟩
    -- Distance along the normal to the plane.
    let distance := -plane.w / directionLength
    -- The origin can be any point on the plane.
    some ⟨norm, ⟨norm.x * distance, norm.y * distance, norm.z * distance⟩⟩

/-- The boolean outcome of `_ToClipPlaneParams` as used by
`_UpdateClipPlanes`: the plane is accepted iff `direction.GetLength() != 0`,
and `√(x² + y² + z²) = 0` iff `x² + y² + z² = 0`. -/
def _ClipPlaneAccepted (plane : GfVec4) : Bool :=
  !(decide (plane.x ^ 2 + plane.y ^ 2 + plane.z ^ 2 = 0))

/-! ## Parameter builders -/

/-- Source `_ComputeProjectionShader`: projection shader name per projection kind. -/
def _ComputeProjectionShader : Projection → String
  | Projection.Perspective => "PxrPerspective"
  | Projection.Orthographic => "PxrOrthographic"

/-- The parameters set by `_ComputeNodeParams` on the projection shader.
`fStop = none` stands for the `RI_INFINITY` sentinel (depth of field
disabled); the other optional fields are simply not set when `none`. -/
structure NodeParams where
  fStop : Option ℚ
  focalLength : Option ℚ
  focalDistance : Option ℚ
  fov : Option ℚ
deriving DecidableEq

/-- Source `_ComputeNodeParams`: parameters for the camera projection shading
node. -/
def _ComputeNodeParams (camera : HdPrmanCamera) : NodeParams :=
  { fStop := if camera.fStop > 0 then some camera.fStop else none
    focalLength := if camera.focalLength > 0 then some camera.focalLength else none
    focalDistance := if camera.focusDistance > 0 then some camera.focusDistance else none
    fov := if camera.projection = Projection.Perspective then some 90 else none }

/-- The parameters set by `_ComputeCameraParams` on the Riley camera:
`nearClip`/`farClip` (optional, set together) and the 4-float screen
window. -/
structure CameraParams where
  nearClip : Option ℚ
  farClip : Option ℚ
  screenWindow : GfVec4
deriving DecidableEq

/-- Source `HdPrmanCameraContext::_ComputeCameraParams`.  The method reads
`_camera`, `_framing` and `_policy`; they are passed explicitly here.  The
clipping range is used only when `min < max` (a strict sanity check ruling
out single-point ranges). -/
def _ComputeCameraParams (camera : HdPrmanCamera) (framing : CameraUtilFraming)
    (policy : CameraUtilConformWindowPolicy) (renderBufferSize : GfVec2i) :
    CameraParams :=
  { nearClip :=
      if camera.clippingRange.min < camera.clippingRange.max then
        some camera.clippingRange.min
      else none
    farClip :=
      if camera.clippingRange.min < camera.clippingRange.max then
        some camera.clippingRange.max
      else none
    screenWindow := _ComputeScreenWindow camera framing policy renderBufferSize }

/-! ## Matrices and the Riley session model -/

/-- The matrix `GfMatrix4d(GfVec4d(1.0, 1.0, -1.0, 1.0))`: the diagonal
z-flip matrix. -/
def flipZMatrix : M4 :=
  Matrix.diagonal ![(1 : ℚ), 1, -1, 1]

/-- Source `HdPrman_GfMatrixToRtMatrix`: a pure change of matrix representation
(`GfMatrix4d` to `RtMatrix4x4`); both are modelled by `M4`, so it is the
identity. -/
def HdPrman_GfMatrixToRtMatrix (m : M4) : M4 := m

/-- Source `_ToRtMatrices`: convert the time-sampled matrices to renderman
matrices, optionally pre-multiplying each sample by the z-flip matrix.
The C++ default for `flipZ` is `false`. -/
def _ToRtMatrices (samples : HdTimeSampleArray) (flipZ : Bool := false) :
    List M4 :=
  samples.values.map fun m =>
    HdPrman_GfMatrixToRtMatrix (if flipZ then flipZMatrix * m else m)

/-- One call issued to the Riley render engine. -/
inductive RileyCall where
  | modifyCamera (cameraId : ℕ) (shader : String) (nodeParams : NodeParams)
      (xforms : List M4) (times : List ℚ) (params : CameraParams)
  | createClippingPlane (handle : ℕ) (xforms : List M4) (times : List ℚ)
      (plane : GfVec4)
  | deleteClippingPlane (handle : ℕ)

/-- The Riley session: a counter producing fresh handles and the ordered log
of issued calls. -/
structure RileyState where
  nextId : ℕ
  calls : List RileyCall

/-- Source `Riley::CreateClippingPlane`: returns a fresh handle and logs the call
(the parameters passed are `_ToClipPlaneParams` of `plane`; the raw plane is
recorded). -/
def rileyCreateClippingPlane (r : RileyState) (xforms : List M4)
    (times : List ℚ) (plane : GfVec4) : ℕ × RileyState :=
  (r.nextId,
    { nextId := r.nextId + 1
      calls := r.calls ++ [RileyCall.createClippingPlane r.nextId xforms times plane] })

/-- Source `Riley::DeleteClippingPlane`: logs the deletion. -/
def rileyDeleteClippingPlane (r : RileyState) (handle : ℕ) : RileyState :=
  { r with calls := r.calls ++ [RileyCall.deleteClippingPlane handle] }

/-! ## Commit: `UpdateRileyCameraAndClipPlanes` -/

/-- Source `HdPrmanCameraContext::_UpdateRileyCamera`: build the shading node and
camera params and issue a single `ModifyCamera` call, with the camera view
transforms z-flipped.  The caller (`UpdateRileyCameraAndClipPlanes`) has
checked `_camera`; `cam` is the dereferenced `_camera`. -/
def _UpdateRileyCamera (s : HdPrmanCameraContext) (cam : HdPrmanCamera)
    (r : RileyState) (renderBufferSize : GfVec2i) : RileyState :=
  let sampleXforms := cam.timeSampleXforms
  -- Riley camera xform is viewToWorld; convert right-handed Y-up camera
  -- space to left-handed Y-up by flipping the Z axis.
  let rtMatrices := _ToRtMatrices sampleXforms true
  { r with
      calls := r.calls ++
        [RileyCall.modifyCamera s._cameraId
          (_ComputeProjectionShader cam.projection)
          (_ComputeNodeParams cam)
          rtMatrices
          sampleXforms.times
          (_ComputeCameraParams cam s._framing s._policy renderBufferSize)] }

/-- The body of the clip-plane creation loop of `_UpdateClipPlanes`: if
`_ToClipPlaneParams` accepts the plane, create the clipping plane and append
the returned handle to the context's handle list. -/
def _CreateClipPlaneStep (rtMatrices : List M4) (times : List ℚ)
    (acc : HdPrmanCameraContext × RileyState) (plane : GfVec4) :
    HdPrmanCameraContext × RileyState :=
  if _ClipPlaneAccepted plane then
    let cr := rileyCreateClippingPlane acc.2 rtMatrices times plane
    ({ acc.1 with _clipPlaneIds := acc.1._clipPlaneIds ++ [cr.1] }, cr.2)
  else
    acc

/-- Source `HdPrmanCameraContext::_UpdateClipPlanes`: delete every existing
clip-plane handle, clear the handle list, then create one clip plane per
accepted (non-degenerate) plane equation of the active camera, appending
each returned handle.  The caller has checked `_camera`. -/
def _UpdateClipPlanes (s : HdPrmanCameraContext) (cam : HdPrmanCamera)
    (r : RileyState) : HdPrmanCameraContext × RileyState :=
  -- Delete clipping planes.
  let r1 := s._clipPlaneIds.foldl rileyDeleteClippingPlane r
  let s1 := { s with _clipPlaneIds := ([] : List ℕ) }
  -- Create clipping planes.
  if cam.clipPlanes = [] then
    (s1, r1)
  else
    cam.clipPlanes.foldl
      (_CreateClipPlaneStep (_ToRtMatrices cam.timeSampleXforms)
        cam.timeSampleXforms.times)
      (s1, r1)

/-- Source `HdPrmanCameraContext::UpdateRileyCameraAndClipPlanes`: bail if no
camera, otherwise update the Riley camera and rebuild the clip planes. -/
def UpdateRileyCameraAndClipPlanes (s : HdPrmanCameraContext) (r : RileyState)
    (renderBufferSize : GfVec2i) : HdPrmanCameraContext × RileyState :=
  match s._camera with
  | none =>
      -- Bail if no camera.
      (s, r)
  | some cam =>
      let r1 := _UpdateRileyCamera s cam r renderBufferSize
      _UpdateClipPlanes s cam r1

/-- Source `HdPrmanCameraContext::SetRileyOptions`: always recomputes the crop
window from the framing's data window and pushes it into the given options;
the pushed crop window is returned. -/
def SetRileyOptions (s : HdPrmanCameraContext) (renderBufferSize : GfVec2i) :
    GfVec4 :=
  _ComputeCropWindow s._framing.dataWindow renderBufferSize

/-! ## Helper lemmas on the vector instances -/

theorem GfVec2.add_def (a b : GfVec2) : a + b = ⟨a.x + b.x, a.y + b.y⟩ := rfl

theorem GfVec2.hmul_def (c : ℚ) (v : GfVec2) : c * v = ⟨c * v.x, c * v.y⟩ := rfl

theorem GfRange2.hdiv_def (r : GfRange2) (c : ℚ) :
    r / c = ⟨⟨r.min.x / c, r.min.y / c⟩, ⟨r.max.x / c, r.max.y / c⟩⟩ := rfl

theorem GfClamp_zero_one_mem (x : ℚ) : 0 ≤ GfClamp x 0 1 ∧ GfClamp x 0 1 ≤ 1 := by
  unfold GfClamp
  split
  · exact ⟨le_refl 0, by norm_num⟩
  · split
    · exact ⟨by norm_num, le_refl 1⟩
    · rename_i h1 h2
      exact ⟨le_of_not_lt h1, le_of_not_lt h2⟩

/-- A sum of three rational squares vanishes iff each term vanishes. -/
theorem sq_sum3_eq_zero {a b c : ℚ} :
    a ^ 2 + b ^ 2 + c ^ 2 = 0 ↔ a = 0 ∧ b = 0 ∧ c = 0 := by
  constructor
  · intro h
    refine ⟨?_, ?_, ?_⟩ <;>
      nlinarith [sq_nonneg a, sq_nonneg b, sq_nonneg c]
  · rintro ⟨rfl, rfl, rfl⟩
    ring

/-! ## C4: filmback screen window -/

/-- C4: `_GetScreenWindow` returns the filmback rectangle
`[-0.5*size + offset, +0.5*size + offset]` unmodified when the projection is
orthographic or the focal length is exactly zero, and otherwise that rectangle
divided component-wise by the focal length; the divisor in the dividing branch
is never zero. -/
theorem getScreenWindow_filmback (cam : HdPrmanCamera) :
    (_GetScreenWindow cam =
      if cam.projection = Projection.Orthographic ∨ cam.focalLength = 0 then
        ⟨⟨-(1/2) * cam.horizontalAperture + cam.horizontalApertureOffset,
            -(1/2) * cam.verticalAperture + cam.verticalApertureOffset⟩,
          ⟨(1/2) * cam.horizontalAperture + cam.horizontalApertureOffset,
            (1/2) * cam.verticalAperture + cam.verticalApertureOffset⟩⟩
      else
        (⟨⟨-(1/2) * cam.horizontalAperture + cam.horizontalApertureOffset,
            -(1/2) * cam.verticalAperture + cam.verticalApertureOffset⟩,
          ⟨(1/2) * cam.horizontalAperture + cam.horizontalApertureOffset,
            (1/2) * cam.verticalAperture + cam.verticalApertureOffset⟩⟩ : GfRange2)
          / cam.focalLength) ∧
    (¬(cam.projection = Projection.Orthographic ∨ cam.focalLength = 0) →
      cam.focalLength ≠ 0) := by
  constructor
  · by_cases hp : cam.projection = Projection.Orthographic <;>
      by_cases hf : cam.focalLength = 0 <;>
        simp [_GetScreenWindow, hp, hf, GfVec2.hmul_def, GfVec2.add_def] <;>
          norm_num
  · intro h
    exact fun hf => h (Or.inr hf)

/-- Concrete perspective camera used by the witness below. -/
def camC4 : HdPrmanCamera :=
  { id := "W", projection := Projection.Perspective,
    horizontalAperture := 4, verticalAperture := 2,
    horizontalApertureOffset := 1, verticalApertureOffset := 0,
    focalLength := 2, fStop := 0, focusDistance := 0,
    clippingRange := ⟨0, 0⟩, clipPlanes := [],
    timeSampleXforms := ⟨[], []⟩ }

/-- Witness for `getScreenWindow_filmback` at a concrete perspective camera
with focal length 2. -/
theorem getScreenWindow_filmback_witness :
    ¬(camC4.projection = Projection.Orthographic ∨ camC4.focalLength = 0) ∧
    camC4.focalLength ≠ 0 ∧
    _GetScreenWindow camC4 =
      (⟨⟨-(1/2) * 4 + 1, -(1/2) * 2 + 0⟩, ⟨(1/2) * 4 + 1, (1/2) * 2 + 0⟩⟩ : GfRange2)
        / (2 : ℚ) := by
  have h1 : ¬(camC4.projection = Projection.Orthographic ∨ camC4.focalLength = 0) := by
    decide
  refine ⟨h1, (getScreenWindow_filmback camC4).2 h1, ?_⟩
  rw [(getScreenWindow_filmback camC4).1]
  norm_num [camC4, GfRange2.hdiv_def]
  decide

/-! ## C3: re-basing the screen window onto the render buffer -/

/-- Source `RebaseScreenWindowToBuffer` as worded by the spec: per-axis scale is
`conformedWindow.size / displayWindow.size`; the horizontal minimum is
`conformedWindow.min.x - scaleX * displayWindow.min.x`; the vertical minimum
is `conformedWindow.max.y + scaleY * (displayWindow.min.y - bufferSize.height)`
(the y-down image space vs y-up screen space flip); the result size is
`scale * bufferSize`. -/
def RebaseScreenWindowToBufferSpec (conformedWindow displayWindow : GfRange2)
    (bufferSize : GfVec2i) : GfRange2 :=
  let scaleX := conformedWindow.GetSize.x / displayWindow.GetSize.x
  let scaleY := conformedWindow.GetSize.y / displayWindow.GetSize.y
  let minX := conformedWindow.min.x - scaleX * displayWindow.min.x
  let minY := conformedWindow.max.y + scaleY * (displayWindow.min.y - (bufferSize.y : ℚ))
  ⟨⟨minX, minY⟩, ⟨minX + scaleX * (bufferSize.x : ℚ), minY + scaleY * (bufferSize.y : ℚ)⟩⟩

/-- C3: the conversion of the screen window to the render buffer computes
exactly the spec's `RebaseScreenWindowToBuffer` formula, and the screen window
placed into the camera commit parameters is that formula applied to the
conformed camera screen window. -/
theorem computeScreenWindow_rebase (conformedWindow displayWindow : GfRange2)
    (bufferSize : GfVec2i) (camera : HdPrmanCamera) (framing : CameraUtilFraming)
    (policy : CameraUtilConformWindowPolicy) (renderBufferSize : GfVec2i) :
    _ConvertScreenWindowForDisplayWindowToRenderBuffer conformedWindow
        displayWindow bufferSize =
      RebaseScreenWindowToBufferSpec conformedWindow displayWindow bufferSize ∧
    (_ComputeCameraParams camera framing policy renderBufferSize).screenWindow =
      _ToVec4f (RebaseScreenWindowToBufferSpec
        (CameraUtilConformedWindow (_GetScreenWindow camera) policy
          (_GetDisplayWindowAspect framing).1)
        framing.displayWindow renderBufferSize) := by
  constructor
  · rfl
  · show _ComputeScreenWindow camera framing policy renderBufferSize = _
    unfold _ComputeScreenWindow
    rfl

/-! ## C5: the crop window -/

/-- C5: the crop window pushed by `SetRileyOptions` is, component-wise,
`clamp((a - 1/128) / b, 0, 1)` applied to
`(minX, width), (maxX + 1, width), (minY, height), (maxY + 1, height)` of the
data window, and every component lies in `[0, 1]`. -/
theorem setRileyOptions_cropWindow (s : HdPrmanCameraContext)
    (renderBufferSize : GfVec2i) :
    SetRileyOptions s renderBufferSize =
      ⟨GfClamp (((s._framing.dataWindow.minX : ℚ) - 1/128) / (renderBufferSize.x : ℚ)) 0 1,
        GfClamp (((s._framing.dataWindow.maxX + 1 : ℤ) - 1/128) / (renderBufferSize.x : ℚ)) 0 1,
        GfClamp (((s._framing.dataWindow.minY : ℚ) - 1/128) / (renderBufferSize.y : ℚ)) 0 1,
        GfClamp (((s._framing.dataWindow.maxY + 1 : ℤ) - 1/128) / (renderBufferSize.y : ℚ)) 0 1⟩ ∧
    (0 ≤ (SetRileyOptions s renderBufferSize).x ∧
        (SetRileyOptions s renderBufferSize).x ≤ 1) ∧
    (0 ≤ (SetRileyOptions s renderBufferSize).y ∧
        (SetRileyOptions s renderBufferSize).y ≤ 1) ∧
    (0 ≤ (SetRileyOptions s renderBufferSize).z ∧
        (SetRileyOptions s renderBufferSize).z ≤ 1) ∧
    (0 ≤ (SetRileyOptions s renderBufferSize).w ∧
        (SetRileyOptions s renderBufferSize).w ≤ 1) := by
  refine ⟨rfl, ?_, ?_, ?_, ?_⟩ <;>
    exact GfClamp_zero_one_mem _

/-! ## C10: commit with no camera is a no-op -/

/-- C10: `UpdateRileyCameraAndClipPlanes` with no active camera issues no
renderer calls and leaves both the context and the renderer state
unchanged. -/
theorem updateRiley_noCamera_noop (s : HdPrmanCameraContext) (r : RileyState)
    (renderBufferSize : GfVec2i) (h : s._camera = none) :
    UpdateRileyCameraAndClipPlanes s r renderBufferSize = (s, r) := by
  unfold UpdateRileyCameraAndClipPlanes
  rw [h]

/-- Witness for `updateRiley_noCamera_noop` at the freshly constructed
context. -/
theorem updateRiley_noCamera_noop_witness :
    initialContext._camera = none ∧
    UpdateRileyCameraAndClipPlanes initialContext ⟨0, []⟩ ⟨4, 3⟩ =
      (initialContext, ⟨0, []⟩) :=
  ⟨rfl, updateRiley_noCamera_noop initialContext ⟨0, []⟩ ⟨4, 3⟩ rfl⟩

/-! ## C7: display-window aspect with zero height -/

/-- A framing with a zero-height display window and pixel aspect ratio 2,
showing that the substituted aspect is the pixel aspect ratio, not 1. -/
def framingC7 : CameraUtilFraming :=
  { displayWindow := ⟨⟨0, 0⟩, ⟨100, 0⟩⟩
    dataWindow := ⟨0, 0, 0, 0⟩
    pixelAspectRatio := 2 }

/-- C7 counterexample: for a zero-height display window with pixel aspect
ratio 2, `_GetDisplayWindowAspect` reports the coding error but evaluates to
2, not to the claimed substituted aspect 1. -/
theorem displayWindowAspect_counterexample :
    framingC7.displayWindow.GetSize.y = 0 ∧
    (_GetDisplayWindowAspect framingC7).2 = true ∧
    (_GetDisplayWindowAspect framingC7).1 = 2 ∧
    ¬(_GetDisplayWindowAspect framingC7).1 = 1 := by
  refine ⟨?_, ?_, ?_, ?_⟩ <;>
    norm_num [framingC7, _GetDisplayWindowAspect, _SafeDiv, GfRange2.GetSize]

/-- C7 (amended): when the display window's height is zero, the aspect
computation reports a recoverable (coding-level) error and substitutes 1.0
for the division, so the resulting aspect equals the pixel aspect ratio; for
nonzero height no error is reported and the aspect equals
`pixelAspectRatio * width / height`. -/
theorem displayWindowAspect_amended (framing : CameraUtilFraming) :
    (framing.displayWindow.GetSize.y = 0 →
      _GetDisplayWindowAspect framing = (framing.pixelAspectRatio * 1, true)) ∧
    (framing.displayWindow.GetSize.y ≠ 0 →
      _GetDisplayWindowAspect framing =
        (framing.pixelAspectRatio *
          (framing.displayWindow.GetSize.x / framing.displayWindow.GetSize.y),
          false)) := by
  constructor <;> intro h <;> simp [_GetDisplayWindowAspect, _SafeDiv, h]

/-- Witness for `displayWindowAspect_amended` at `framingC7` (zero height)
and at a framing of height 2. -/
theorem displayWindowAspect_amended_witness :
    framingC7.displayWindow.GetSize.y = 0 ∧
    _GetDisplayWindowAspect framingC7 = (framingC7.pixelAspectRatio * 1, true) ∧
    (CameraUtilFraming.mk ⟨⟨0, 0⟩, ⟨4, 2⟩⟩ ⟨0, 0, 0, 0⟩ 1).displayWindow.GetSize.y ≠ 0 ∧
    _GetDisplayWindowAspect (CameraUtilFraming.mk ⟨⟨0, 0⟩, ⟨4, 2⟩⟩ ⟨0, 0, 0, 0⟩ 1) =
      ((CameraUtilFraming.mk ⟨⟨0, 0⟩, ⟨4, 2⟩⟩ ⟨0, 0, 0, 0⟩ 1).pixelAspectRatio *
        ((CameraUtilFraming.mk ⟨⟨0, 0⟩, ⟨4, 2⟩⟩ ⟨0, 0, 0, 0⟩ 1).displayWindow.GetSize.x /
          (CameraUtilFraming.mk ⟨⟨0, 0⟩, ⟨4, 2⟩⟩ ⟨0, 0, 0, 0⟩ 1).displayWindow.GetSize.y),
        false) := by
  have h0 : framingC7.displayWindow.GetSize.y = 0 := by
    norm_num [framingC7, GfRange2.GetSize]
  have h2 : (CameraUtilFraming.mk ⟨⟨0, 0⟩, ⟨4, 2⟩⟩ ⟨0, 0, 0, 0⟩ 1).displayWindow.GetSize.y ≠ 0 := by
    norm_num [GfRange2.GetSize]
  exact ⟨h0, (displayWindowAspect_amended framingC7).1 h0, h2,
    (displayWindowAspect_amended _).2 h2⟩

/-! ## C6: clip-plane equation conversion -/

/-- C6: given any length value satisfying `0 ≤ len` and
`len² = x² + y² + z²` (i.e. `len = direction.GetLength()`),
`_ToClipPlaneParams` produces no parameters exactly when the normal
`(x, y, z)` is the zero vector, the boolean acceptance gate used by
`_UpdateClipPlanes` agrees, and otherwise the produced parameters are the
unit normal `normal / len` and the origin `unitNormal * (-w / len)`. -/
theorem toClipPlaneParams_spec (plane : GfVec4) (len : ℚ) (_h0 : 0 ≤ len)
    (hlen : len ^ 2 = plane.x ^ 2 + plane.y ^ 2 + plane.z ^ 2) :
    (_ToClipPlaneParams plane len = none ↔
      plane.x = 0 ∧ plane.y = 0 ∧ plane.z = 0) ∧
    (_ClipPlaneAccepted plane = false ↔
      plane.x = 0 ∧ plane.y = 0 ∧ plane.z = 0) ∧
    (¬(plane.x = 0 ∧ plane.y = 0 ∧ plane.z = 0) →
      _ToClipPlaneParams plane len =
        some ⟨⟨plane.x / len, plane.y / len, plane.z / len⟩,
          ⟨plane.x / len * (-plane.w / len), plane.y / len * (-plane.w / len),
            plane.z / len * (-plane.w / len)⟩⟩) := by
  have hiff : len = 0 ↔ plane.x = 0 ∧ plane.y = 0 ∧ plane.z = 0 := by
    rw [← sq_sum3_eq_zero, ← hlen]
    constructor
    · intro h
      rw [h]
      ring
    · intro h
      exact (pow_eq_zero_iff (by norm_num : (2 : ℕ) ≠ 0)).mp h
  refine ⟨?_, ?_, ?_⟩
  · unfold _ToClipPlaneParams
    rw [← hiff]
    split
    · rename_i h
      simp [h]
    · rename_i h
      simp [h]
  · simp [_ClipPlaneAccepted, sq_sum3_eq_zero]
  · intro h
    have hne : ¬len = 0 := fun hl => h (hiff.mp hl)
    unfold _ToClipPlaneParams
    simp [hne]

/-- Witness for `toClipPlaneParams_spec`: plane `(0,0,1,-5)` (length 1)
yields unit normal `(0,0,1)` and origin `(0,0,5)`; plane `(0,0,0,0)`
(length 0) is degenerate and rejected by the acceptance gate. -/
theorem toClipPlaneParams_spec_witness :
    (0 : ℚ) ≤ 1 ∧ ((1 : ℚ) ^ 2 = 0 ^ 2 + 0 ^ 2 + 1 ^ 2) ∧
    _ToClipPlaneParams ⟨0, 0, 1, -5⟩ 1 = some ⟨⟨0, 0, 1⟩, ⟨0, 0, 5⟩⟩ ∧
    _ToClipPlaneParams ⟨0, 0, 0, 0⟩ 0 = none ∧
    _ClipPlaneAccepted ⟨0, 0, 0, 0⟩ = false := by
  refine ⟨by norm_num, by norm_num, ?_, ?_, ?_⟩
  · rw [(toClipPlaneParams_spec ⟨0, 0, 1, -5⟩ 1 (by norm_num) (by norm_num)).2.2
      (by norm_num)]
    norm_num
  · exact (toClipPlaneParams_spec ⟨0, 0, 0, 0⟩ 0 le_rfl (by norm_num)).1.mpr
      ⟨rfl, rfl, rfl⟩
  · exact (toClipPlaneParams_spec ⟨0, 0, 0, 0⟩ 0 le_rfl (by norm_num)).2.1.mpr
      ⟨rfl, rfl, rfl⟩

/-! ## Trace invariants for the dirty flag (C1, C9) -/

/-- No operation other than `MarkValid` ever clears the dirty flag. -/
theorem applyOp_invalid_mono (s : HdPrmanCameraContext) (op : CameraOp)
    (hop : op ≠ CameraOp.markValid) (h : s._invalid = true) :
    (applyOp s op)._invalid = true := by
  cases op with
  | setCamera c =>
      cases c <;> simp [applyOp, HdPrmanCameraContext.SetCamera] <;> split <;> simp [h]
  | setFraming f =>
      simp only [applyOp, HdPrmanCameraContext.SetFraming]
      split <;> simp [h]
  | setWindowPolicy p =>
      simp only [applyOp, HdPrmanCameraContext.SetWindowPolicy]
      split <;> simp [h]
  | markValid => exact absurd rfl hop
  | markCameraInvalid c =>
      cases c with
      | none => exact h
      | some cam =>
          simp only [applyOp, HdPrmanCameraContext.MarkCameraInvalid]
          split <;> simp [h]

/-- Over a trace without `MarkValid`, the dirty flag is monotone. -/
theorem runOps_invalid_mono (ops : List CameraOp) :
    ∀ s : HdPrmanCameraContext, CameraOp.markValid ∉ ops → s._invalid = true →
      (runOps s ops)._invalid = true := by
  induction ops with
  | nil => exact fun s _ h => h
  | cons op rest ih =>
      intro s hmem h
      have hop : op ≠ CameraOp.markValid := by
        intro he
        exact hmem (he ▸ List.mem_cons_self op rest)
      have hrest : CameraOp.markValid ∉ rest := fun hr => hmem (List.mem_cons_of_mem op hr)
      exact ih (applyOp s op) hrest (applyOp_invalid_mono s op hop h)

/-- Any single operation either leaves the stored camera path unchanged or
sets the dirty flag. -/
theorem applyOp_path_or_invalid (s : HdPrmanCameraContext) (op : CameraOp) :
    (applyOp s op)._cameraPath = s._cameraPath ∨ (applyOp s op)._invalid = true := by
  cases op with
  | setCamera c =>
      cases c with
      | none =>
          left
          simp only [applyOp, HdPrmanCameraContext.SetCamera]
          split <;> rfl
      | some cam =>
          simp only [applyOp, HdPrmanCameraContext.SetCamera]
          split
          · right
            rfl
          · left
            rfl
  | setFraming f =>
      left
      simp only [applyOp, HdPrmanCameraContext.SetFraming]
      split <;> rfl
  | setWindowPolicy p =>
      left
      simp only [applyOp, HdPrmanCameraContext.SetWindowPolicy]
      split <;> rfl
  | markValid => left; rfl
  | markCameraInvalid c =>
      left
      cases c with
      | none => rfl
      | some cam =>
          simp only [applyOp, HdPrmanCameraContext.MarkCameraInvalid]
          split <;> rfl

/-- Over a trace without `MarkValid`, a change of the stored camera path
implies the dirty flag is set at the end. -/
theorem runOps_path_change_invalid (ops : List CameraOp) :
    ∀ s : HdPrmanCameraContext, CameraOp.markValid ∉ ops →
      (runOps s ops)._cameraPath ≠ s._cameraPath → (runOps s ops)._invalid = true := by
  induction ops with
  | nil => exact fun s _ h => absurd rfl h
  | cons op rest ih =>
      intro s hmem hne
      have hop : op ≠ CameraOp.markValid := by
        intro he
        exact hmem (he ▸ List.mem_cons_self op rest)
      have hrest : CameraOp.markValid ∉ rest := fun hr => hmem (List.mem_cons_of_mem op hr)
      rcases applyOp_path_or_invalid s op with hpath | hinv
      · exact ih (applyOp s op) hrest (fun he => hne (by
          show (runOps (applyOp s op) rest)._cameraPath = s._cameraPath
          rw [he, hpath]))
      · exact runOps_invalid_mono rest (applyOp s op) hrest hinv

/-- Any operation that is neither `SetCamera(nullptr)` nor `MarkValid`
preserves the presence of an active camera. -/
theorem applyOp_camera_isSome (s : HdPrmanCameraContext) (op : CameraOp)
    (hop : op ≠ CameraOp.setCamera none) (h : s._camera.isSome = true) :
    (applyOp s op)._camera.isSome = true := by
  cases op with
  | setCamera c =>
      cases c with
      | none => exact absurd rfl hop
      | some cam => simp [applyOp, HdPrmanCameraContext.SetCamera]
  | setFraming f =>
      simp only [applyOp, HdPrmanCameraContext.SetFraming]
      split <;> exact h
  | setWindowPolicy p =>
      simp only [applyOp, HdPrmanCameraContext.SetWindowPolicy]
      split <;> exact h
  | markValid => exact h
  | markCameraInvalid c =>
      cases c with
      | none => exact h
      | some cam =>
          simp only [applyOp, HdPrmanCameraContext.MarkCameraInvalid]
          split <;> exact h

/-- Over a trace without `MarkValid` that contains a `SetCamera(nullptr)`
while a camera is active, the dirty flag is set at the end. -/
theorem runOps_setCameraNone_invalid (ops : List CameraOp) :
    ∀ s : HdPrmanCameraContext, CameraOp.markValid ∉ ops →
      s._camera.isSome = true → CameraOp.setCamera none ∈ ops →
      (runOps s ops)._invalid = true := by
  induction ops with
  | nil => intro s _ _ hmem; cases hmem
  | cons op rest ih =>
      intro s hmv hsome hmem
      have hrest : CameraOp.markValid ∉ rest := fun hr => hmv (List.mem_cons_of_mem op hr)
      by_cases hop : op = CameraOp.setCamera none
      · subst hop
        have h1 : (applyOp s (CameraOp.setCamera none))._invalid = true := by
          simp only [applyOp, HdPrmanCameraContext.SetCamera]
          rw [if_pos hsome]
        exact runOps_invalid_mono rest _ hrest h1
      · have hmem' : CameraOp.setCamera none ∈ rest := by
          rcases List.mem_cons.mp hmem with he | hr
          · exact absurd he.symm hop
          · exact hr
        exact ih (applyOp s op) hrest (applyOp_camera_isSome s op hop hsome) hmem'

/-! ## C1: the dirty flag and camera identity switches -/

/-- A concrete camera with identity `"A"`. -/
def camA : HdPrmanCamera :=
  { id := "A", projection := Projection.Perspective,
    horizontalAperture := 0, verticalAperture := 0,
    horizontalApertureOffset := 0, verticalApertureOffset := 0,
    focalLength := 0, fStop := 0, focusDistance := 0,
    clippingRange := ⟨0, 0⟩, clipPlanes := [], timeSampleXforms := ⟨[], []⟩ }

/-- The trace `SetCamera(A); MarkValid; SetCamera(nullptr); MarkValid;
SetCamera(A)`. -/
def traceC1 : List CameraOp :=
  [CameraOp.setCamera (some camA), CameraOp.markValid,
    CameraOp.setCamera none, CameraOp.markValid,
    CameraOp.setCamera (some camA)]

/-- C1 counterexample: at the last `MarkValid` of `traceC1` the active camera
is none, afterwards `SetCamera(A)` switches the active camera from none to
camera `"A"`, yet `IsInvalid` remains false — the flag does **not** record
every identity switch from "no camera" to a camera, because the stored
camera path survives `SetCamera(nullptr)`. -/
theorem setCamera_identity_counterexample :
    (runOps initialContext (traceC1.take 4))._camera.isNone = true ∧
    (runOps initialContext (traceC1.take 4))._invalid = false ∧
    (runOps initialContext traceC1)._camera.map HdPrmanCamera.id = some "A" ∧
    (runOps initialContext traceC1).IsInvalid = false := by
  refine ⟨rfl, rfl, rfl, rfl⟩

/-- C1 (amended): `SetCamera` stores the camera reference in every case;
with a non-null camera it sets the dirty flag (and updates the stored path)
exactly when the camera's identity differs from the stored path, and leaves
the state otherwise unchanged apart from the reference; with a null camera it
sets the flag exactly when a camera was present.  Moreover, over any trace
without `MarkValid`: a change of the stored camera identity, or a
`SetCamera(nullptr)` while a camera is active, leaves the dirty flag set at
the end of the trace.  (Switching from no camera back to a camera whose
identity equals the surviving stored path does not set the flag.) -/
theorem setCamera_identity_dirty (s : HdPrmanCameraContext)
    (cam : HdPrmanCamera) (c : Option HdPrmanCamera) (ops : List CameraOp) :
    (s.SetCamera c)._camera = c ∧
    (cam.id = s._cameraPath → s.SetCamera (some cam) = { s with _camera := some cam }) ∧
    (cam.id ≠ s._cameraPath →
      s.SetCamera (some cam) =
        { s with _camera := some cam, _cameraPath := cam.id, _invalid := true }) ∧
    (s._camera.isSome = true →
      s.SetCamera none = { s with _camera := none, _invalid := true }) ∧
    (s._camera.isSome = false → s.SetCamera none = { s with _camera := none }) ∧
    (CameraOp.markValid ∉ ops →
      ((runOps s ops)._cameraPath ≠ s._cameraPath → (runOps s ops)._invalid = true) ∧
      (s._camera.isSome = true → CameraOp.setCamera none ∈ ops →
        (runOps s ops)._invalid = true)) := by
  refine ⟨?_, ?_, ?_, ?_, ?_, ?_⟩
  · cases c with
    | none => rfl
    | some cam2 => rfl
  · intro h
    simp only [HdPrmanCameraContext.SetCamera]
    rw [if_neg (by simp [h.symm])]
  · intro h
    simp only [HdPrmanCameraContext.SetCamera]
    rw [if_pos (fun he => h (by rw [he]))]
  · intro h
    simp only [HdPrmanCameraContext.SetCamera]
    rw [if_pos h]
  · intro h
    simp only [HdPrmanCameraContext.SetCamera]
    rw [if_neg (by simp [h])]
  · intro hmv
    exact ⟨runOps_path_change_invalid ops s hmv,
      fun hsome hmem => runOps_setCameraNone_invalid ops s hmv hsome hmem⟩

/-- Witness for `setCamera_identity_dirty`: setting camera `"A"` on the
fresh context changes the stored path and leaves the flag set. -/
theorem setCamera_identity_dirty_witness :
    CameraOp.markValid ∉ [CameraOp.setCamera (some camA)] ∧
    (runOps initialContext [CameraOp.setCamera (some camA)])._cameraPath ≠
      initialContext._cameraPath ∧
    (runOps initialContext [CameraOp.setCamera (some camA)])._invalid = true := by
  have hmv : CameraOp.markValid ∉ [CameraOp.setCamera (some camA)] :=
    fun h => CameraOp.noConfusion (List.mem_singleton.mp h)
  have hne : (runOps initialContext [CameraOp.setCamera (some camA)])._cameraPath ≠
      initialContext._cameraPath := by
    show ("A" : String) ≠ ""
    decide
  exact ⟨hmv, hne,
    ((setCamera_identity_dirty initialContext camA none
      [CameraOp.setCamera (some camA)]).2.2.2.2.2 hmv).1 hne⟩

/-! ## C9: `MarkCameraInvalid` filtering -/

/-- The trace `SetCamera(A); MarkValid; SetCamera(nullptr); MarkValid`,
leaving a valid state with no active camera but stored path `"A"`. -/
def traceC9 : List CameraOp :=
  [CameraOp.setCamera (some camA), CameraOp.markValid,
    CameraOp.setCamera none, CameraOp.markValid]

/-- C9 counterexample: after `traceC9` the active camera is none and the
state is valid, yet `MarkCameraInvalid(A)` sets the dirty flag — the filter
compares against the stored camera path (which survives `SetCamera(nullptr)`),
not against the currently active camera, so a call with a camera that is not
the active one does change the state. -/
theorem markCameraInvalid_counterexample :
    (runOps initialContext traceC9)._camera.isNone = true ∧
    (runOps initialContext traceC9).IsInvalid = false ∧
    ((runOps initialContext traceC9).MarkCameraInvalid (some camA)).IsInvalid = true := by
  refine ⟨rfl, rfl, rfl⟩

/-- C9 (amended): `MarkCameraInvalid` sets the dirty flag exactly when the
argument is non-null and its identity equals the *stored camera path*; a null
argument or an identity different from the stored path leaves the state
completely unchanged.  (The stored path normally identifies the active
camera, but it survives `SetCamera(nullptr)`.) -/
theorem markCameraInvalid_filter (s : HdPrmanCameraContext) (cam : HdPrmanCamera) :
    s.MarkCameraInvalid none = s ∧
    (cam.id ≠ s._cameraPath → s.MarkCameraInvalid (some cam) = s) ∧
    (cam.id = s._cameraPath →
      s.MarkCameraInvalid (some cam) = { s with _invalid := true }) := by
  refine ⟨rfl, ?_, ?_⟩ <;> intro h <;>
    simp only [HdPrmanCameraContext.MarkCameraInvalid]
  · rw [if_neg h]
  · rw [if_pos h]

/-- Witness for `markCameraInvalid_filter`: on the fresh context (stored path
empty), `MarkCameraInvalid(A)` leaves the state unchanged. -/
theorem markCameraInvalid_filter_witness :
    camA.id ≠ initialContext._cameraPath ∧
    initialContext.MarkCameraInvalid (some camA) = initialContext := by
  have h : camA.id ≠ initialContext._cameraPath := by decide
  exact ⟨h, (markCameraInvalid_filter initialContext camA).2.1 h⟩

/-! ## Fold lemmas for the clip-plane rebuild (C2, C8) -/

/-- The deletion loop of `_UpdateClipPlanes` leaves the handle counter
unchanged and appends one `DeleteClippingPlane` call per old handle. -/
theorem deleteFold_spec (ids : List ℕ) :
    ∀ r : RileyState,
      (ids.foldl rileyDeleteClippingPlane r).nextId = r.nextId ∧
      (ids.foldl rileyDeleteClippingPlane r).calls =
        r.calls ++ ids.map RileyCall.deleteClippingPlane := by
  induction ids with
  | nil => intro r; exact ⟨rfl, by simp⟩
  | cons i rest ih =>
      intro r
      obtain ⟨h1, h2⟩ := ih (rileyDeleteClippingPlane r i)
      refine ⟨by rw [List.foldl_cons, h1]; rfl, ?_⟩
      rw [List.foldl_cons, h2]
      simp [rileyDeleteClippingPlane]

/-- The creation loop of `_UpdateClipPlanes` appends exactly one fresh,
consecutively numbered handle per accepted plane, advances the handle counter
by the number of accepted planes, and appends only `CreateClippingPlane`
calls carrying the loop's transform samples and accepted planes. -/
theorem createFold_spec (ms : List M4) (ts : List ℚ) (planes : List GfVec4) :
    ∀ st : HdPrmanCameraContext × RileyState,
      (planes.foldl (_CreateClipPlaneStep ms ts) st).1._clipPlaneIds =
        st.1._clipPlaneIds ++
          List.range' st.2.nextId (planes.countP fun p => _ClipPlaneAccepted p) ∧
      (planes.foldl (_CreateClipPlaneStep ms ts) st).2.nextId =
        st.2.nextId + (planes.countP fun p => _ClipPlaneAccepted p) ∧
      ∃ l, (planes.foldl (_CreateClipPlaneStep ms ts) st).2.calls =
          st.2.calls ++ l ∧
        ∀ c ∈ l, ∃ n p, c = RileyCall.createClippingPlane n ms ts p ∧
          _ClipPlaneAccepted p = true := by
  induction planes with
  | nil =>
      intro st
      exact ⟨by simp, by simp, [], by simp, by simp⟩
  | cons plane rest ih =>
      intro st
      rw [List.foldl_cons]
      by_cases hp : _ClipPlaneAccepted plane
      · obtain ⟨h1, h2, l, hl, hlc⟩ := ih (_CreateClipPlaneStep ms ts st plane)
        have e1 : (_CreateClipPlaneStep ms ts st plane).1._clipPlaneIds =
            st.1._clipPlaneIds ++ [st.2.nextId] := by
          simp [_CreateClipPlaneStep, rileyCreateClippingPlane, hp]
        have e2 : (_CreateClipPlaneStep ms ts st plane).2.nextId =
            st.2.nextId + 1 := by
          simp [_CreateClipPlaneStep, rileyCreateClippingPlane, hp]
        have e3 : (_CreateClipPlaneStep ms ts st plane).2.calls =
            st.2.calls ++ [RileyCall.createClippingPlane st.2.nextId ms ts plane] := by
          simp [_CreateClipPlaneStep, rileyCreateClippingPlane, hp]
        have hcount : (plane :: rest).countP (fun p => _ClipPlaneAccepted p) =
            (rest.countP fun p => _ClipPlaneAccepted p) + 1 :=
          List.countP_cons_of_pos _ _ hp
        refine ⟨?_, ?_, ?_⟩
        · rw [h1, e1, e2, hcount,
            List.range'_succ st.2.nextId (rest.countP fun p => _ClipPlaneAccepted p) 1]
          simp [List.append_assoc]
        · rw [h2, e2, hcount]
          omega
        · refine ⟨RileyCall.createClippingPlane st.2.nextId ms ts plane :: l, ?_, ?_⟩
          · rw [hl, e3]
            simp
          · intro c hc
            rcases List.mem_cons.mp hc with hc | hc
            · exact ⟨st.2.nextId, plane, hc, hp⟩
            · exact hlc c hc
      · have hstep : _CreateClipPlaneStep ms ts st plane = st := by
          simp only [_CreateClipPlaneStep, if_neg hp]
        rw [hstep]
        have hcount : (plane :: rest).countP (fun p => _ClipPlaneAccepted p) =
            rest.countP fun p => _ClipPlaneAccepted p :=
          List.countP_cons_of_neg _ _ (by simpa using hp)
        rw [hcount]
        exact ih st

/-- Source `_UpdateRileyCamera` issues exactly one `ModifyCamera` call and leaves
the handle counter unchanged. -/
theorem updateRileyCamera_effects (s : HdPrmanCameraContext)
    (cam : HdPrmanCamera) (r : RileyState) (renderBufferSize : GfVec2i) :
    (_UpdateRileyCamera s cam r renderBufferSize).nextId = r.nextId ∧
    (_UpdateRileyCamera s cam r renderBufferSize).calls =
      r.calls ++
        [RileyCall.modifyCamera s._cameraId
          (_ComputeProjectionShader cam.projection)
          (_ComputeNodeParams cam)
          (_ToRtMatrices cam.timeSampleXforms true)
          cam.timeSampleXforms.times
          (_ComputeCameraParams cam s._framing s._policy renderBufferSize)] :=
  ⟨rfl, rfl⟩

/-! ## C2: the clip-plane handle list after a commit -/

/-- C2: a commit with an active camera leaves the context holding exactly one
freshly created handle per accepted (non-degenerate) clip plane of the
camera, numbered consecutively in plane order; it issues a
`DeleteClippingPlane` call for every pre-existing handle; and (assuming the
old handles were created by the renderer, i.e. are below the renderer's
fresh-handle counter) none of the old handles survives into the new list. -/
theorem commit_rebuilds_clipPlanes (s : HdPrmanCameraContext)
    (cam : HdPrmanCamera) (r : RileyState) (renderBufferSize : GfVec2i)
    (hcam : s._camera = some cam)
    (hfresh : ∀ h ∈ s._clipPlaneIds, h < r.nextId) :
    (UpdateRileyCameraAndClipPlanes s r renderBufferSize).1._clipPlaneIds =
      List.range' r.nextId (cam.clipPlanes.countP fun p => _ClipPlaneAccepted p) ∧
    (∀ h ∈ s._clipPlaneIds,
      RileyCall.deleteClippingPlane h ∈
        (UpdateRileyCameraAndClipPlanes s r renderBufferSize).2.calls) ∧
    (∀ h ∈ (UpdateRileyCameraAndClipPlanes s r renderBufferSize).1._clipPlaneIds,
      h ∉ s._clipPlaneIds) := by
  have hred : UpdateRileyCameraAndClipPlanes s r renderBufferSize =
      _UpdateClipPlanes s cam (_UpdateRileyCamera s cam r renderBufferSize) := by
    unfold UpdateRileyCameraAndClipPlanes
    rw [hcam]
  rw [hred]
  obtain ⟨hdn, hdc⟩ :=
    deleteFold_spec s._clipPlaneIds (_UpdateRileyCamera s cam r renderBufferSize)
  have hr1n : (_UpdateRileyCamera s cam r renderBufferSize).nextId = r.nextId := rfl
  simp only [_UpdateClipPlanes]
  by_cases hcp : cam.clipPlanes = []
  · rw [if_pos hcp]
    refine ⟨by simp [hcp], ?_, by simp⟩
    intro h hh
    rw [hdc]
    exact List.mem_append_right _ (List.mem_map_of_mem _ hh)
  · rw [if_neg hcp]
    obtain ⟨h1, h2, l, hl, hlc⟩ :=
      createFold_spec (_ToRtMatrices cam.timeSampleXforms)
        cam.timeSampleXforms.times cam.clipPlanes
        ({ s with _clipPlaneIds := ([] : List ℕ) },
          s._clipPlaneIds.foldl rileyDeleteClippingPlane
            (_UpdateRileyCamera s cam r renderBufferSize))
    refine ⟨?_, ?_, ?_⟩
    · rw [h1]
      simp only [List.nil_append]
      rw [hdn, hr1n]
    · intro h hh
      rw [hl, hdc]
      exact List.mem_append_left _ (List.mem_append_right _ (List.mem_map_of_mem _ hh))
    · intro h hh hmem
      rw [h1] at hh
      simp only [List.nil_append] at hh
      rw [hdn, hr1n] at hh
      have := (List.mem_range'_1.mp hh).1
      exact absurd (hfresh h hmem) (by omega)

/-- Camera `"B"` with three clip planes of which the middle one is
degenerate. -/
def camC2 : HdPrmanCamera :=
  { id := "B", projection := Projection.Perspective,
    horizontalAperture := 0, verticalAperture := 0,
    horizontalApertureOffset := 0, verticalApertureOffset := 0,
    focalLength := 0, fStop := 0, focusDistance := 0,
    clippingRange := ⟨0, 0⟩,
    clipPlanes := [⟨0, 0, 1, -5⟩, ⟨0, 0, 0, 0⟩, ⟨1, 0, 0, 2⟩],
    timeSampleXforms := ⟨[], []⟩ }

/-- A context holding camera `"B"` and one stale clip-plane handle `7`. -/
def sC2 : HdPrmanCameraContext :=
  { initialContext with
      _camera := some camC2, _cameraPath := "B", _clipPlaneIds := [7] }

/-- A renderer session whose next fresh handle is `10`. -/
def rC2 : RileyState := ⟨10, []⟩

/-- Witness for `commit_rebuilds_clipPlanes`: committing three clip planes of
which one is degenerate yields exactly the two fresh handles `[10, 11]`, and
the stale handle `7` is deleted and does not survive. -/
theorem commit_rebuilds_clipPlanes_witness :
    sC2._camera = some camC2 ∧
    (∀ h ∈ sC2._clipPlaneIds, h < rC2.nextId) ∧
    ((UpdateRileyCameraAndClipPlanes sC2 rC2 ⟨4, 3⟩).1._clipPlaneIds =
        List.range' rC2.nextId (camC2.clipPlanes.countP fun p => _ClipPlaneAccepted p) ∧
      (∀ h ∈ sC2._clipPlaneIds,
        RileyCall.deleteClippingPlane h ∈
          (UpdateRileyCameraAndClipPlanes sC2 rC2 ⟨4, 3⟩).2.calls) ∧
      (∀ h ∈ (UpdateRileyCameraAndClipPlanes sC2 rC2 ⟨4, 3⟩).1._clipPlaneIds,
        h ∉ sC2._clipPlaneIds)) ∧
    (camC2.clipPlanes.countP fun p => _ClipPlaneAccepted p) = 2 ∧
    List.range' rC2.nextId 2 = [10, 11] := by
  have hfresh : ∀ h ∈ sC2._clipPlaneIds, h < rC2.nextId := by
    intro h hh
    rcases List.mem_singleton.mp hh with rfl
    decide
  refine ⟨rfl, hfresh,
    commit_rebuilds_clipPlanes sC2 camC2 rC2 ⟨4, 3⟩ rfl hfresh, ?_, by decide⟩
  norm_num [camC2, List.countP_cons, List.countP_nil, _ClipPlaneAccepted]

/-! ## C8: z-flip of the camera view transforms -/

/-- C8: during a commit with an active camera, the transform samples passed
with the single `ModifyCamera` call are, sample by sample, the camera's
time-sampled view transforms pre-multiplied by the diagonal z-flip matrix
`diag(1, 1, -1, 1)`, while every `CreateClippingPlane` call passes the
camera's time-sampled transforms unflipped (with the same sample times). -/
theorem commit_transform_flips (s : HdPrmanCameraContext) (cam : HdPrmanCamera)
    (r : RileyState) (renderBufferSize : GfVec2i)
    (hcam : s._camera = some cam) (hlog : r.calls = []) :
    flipZMatrix = Matrix.diagonal ![(1 : ℚ), 1, -1, 1] ∧
    _ToRtMatrices cam.timeSampleXforms true =
      cam.timeSampleXforms.values.map (fun m => flipZMatrix * m) ∧
    _ToRtMatrices cam.timeSampleXforms false = cam.timeSampleXforms.values ∧
    (∃ ps, RileyCall.modifyCamera s._cameraId
        (_ComputeProjectionShader cam.projection) (_ComputeNodeParams cam)
        (cam.timeSampleXforms.values.map (fun m => flipZMatrix * m))
        cam.timeSampleXforms.times ps ∈
        (UpdateRileyCameraAndClipPlanes s r renderBufferSize).2.calls) ∧
    (∀ i sh np xs ts ps,
      RileyCall.modifyCamera i sh np xs ts ps ∈
          (UpdateRileyCameraAndClipPlanes s r renderBufferSize).2.calls →
        xs = cam.timeSampleXforms.values.map (fun m => flipZMatrix * m)) ∧
    (∀ n xs ts p,
      RileyCall.createClippingPlane n xs ts p ∈
          (UpdateRileyCameraAndClipPlanes s r renderBufferSize).2.calls →
        xs = cam.timeSampleXforms.values ∧ ts = cam.timeSampleXforms.times) := by
  have hflip : _ToRtMatrices cam.timeSampleXforms true =
      cam.timeSampleXforms.values.map (fun m => flipZMatrix * m) := by
    simp [_ToRtMatrices, HdPrman_GfMatrixToRtMatrix]
  have hnoflip : _ToRtMatrices cam.timeSampleXforms false =
      cam.timeSampleXforms.values := by
    simp [_ToRtMatrices, HdPrman_GfMatrixToRtMatrix]
  have hred : UpdateRileyCameraAndClipPlanes s r renderBufferSize =
      _UpdateClipPlanes s cam (_UpdateRileyCamera s cam r renderBufferSize) := by
    unfold UpdateRileyCameraAndClipPlanes
    rw [hcam]
  rw [hred]
  obtain ⟨hdn, hdc⟩ :=
    deleteFold_spec s._clipPlaneIds (_UpdateRileyCamera s cam r renderBufferSize)
  have hr1c : (_UpdateRileyCamera s cam r renderBufferSize).calls =
      r.calls ++
        [RileyCall.modifyCamera s._cameraId
          (_ComputeProjectionShader cam.projection)
          (_ComputeNodeParams cam)
          (_ToRtMatrices cam.timeSampleXforms true)
          cam.timeSampleXforms.times
          (_ComputeCameraParams cam s._framing s._policy renderBufferSize)] := rfl
  rw [hlog] at hr1c
  simp only [List.nil_append] at hr1c
  -- A characterization of every call in the final log.
  have hchar : ∀ c ∈ (_UpdateClipPlanes s cam
      (_UpdateRileyCamera s cam r renderBufferSize)).2.calls,
      c = RileyCall.modifyCamera s._cameraId
          (_ComputeProjectionShader cam.projection)
          (_ComputeNodeParams cam)
          (_ToRtMatrices cam.timeSampleXforms true)
          cam.timeSampleXforms.times
          (_ComputeCameraParams cam s._framing s._policy renderBufferSize) ∨
        (∃ h, c = RileyCall.deleteClippingPlane h) ∨
        (∃ n p, c = RileyCall.createClippingPlane n
          (_ToRtMatrices cam.timeSampleXforms) cam.timeSampleXforms.times p ∧
          _ClipPlaneAccepted p = true) := by
    simp only [_UpdateClipPlanes]
    by_cases hcp : cam.clipPlanes = []
    · rw [if_pos hcp]
      intro c hc
      rw [hdc, hr1c] at hc
      rcases List.mem_append.mp hc with hc | hc
      · exact Or.inl (List.mem_singleton.mp hc)
      · obtain ⟨a, _, ha⟩ := List.mem_map.mp hc
        exact Or.inr (Or.inl ⟨a, ha.symm⟩)
    · rw [if_neg hcp]
      obtain ⟨h1, h2, l, hl, hlc⟩ :=
        createFold_spec (_ToRtMatrices cam.timeSampleXforms)
          cam.timeSampleXforms.times cam.clipPlanes
          ({ s with _clipPlaneIds := ([] : List ℕ) },
            s._clipPlaneIds.foldl rileyDeleteClippingPlane
              (_UpdateRileyCamera s cam r renderBufferSize))
      intro c hc
      rw [hl] at hc
      rcases List.mem_append.mp hc with hc | hc
      · rw [hdc, hr1c] at hc
        rcases List.mem_append.mp hc with hc | hc
        · exact Or.inl (List.mem_singleton.mp hc)
        · obtain ⟨a, _, ha⟩ := List.mem_map.mp hc
          exact Or.inr (Or.inl ⟨a, ha.symm⟩)
      · obtain ⟨n, p, he, hp⟩ := hlc c hc
        exact Or.inr (Or.inr ⟨n, p, he, hp⟩)
  -- Membership of the ModifyCamera call in the final log.
  have hmodmem : RileyCall.modifyCamera s._cameraId
      (_ComputeProjectionShader cam.projection)
      (_ComputeNodeParams cam)
      (_ToRtMatrices cam.timeSampleXforms true)
      cam.timeSampleXforms.times
      (_ComputeCameraParams cam s._framing s._policy renderBufferSize) ∈
      (_UpdateClipPlanes s cam (_UpdateRileyCamera s cam r renderBufferSize)).2.calls := by
    simp only [_UpdateClipPlanes]
    by_cases hcp : cam.clipPlanes = []
    · rw [if_pos hcp]
      rw [hdc, hr1c]
      exact List.mem_append_left _ (List.mem_singleton.mpr rfl)
    · rw [if_neg hcp]
      obtain ⟨h1, h2, l, hl, hlc⟩ :=
        createFold_spec (_ToRtMatrices cam.timeSampleXforms)
          cam.timeSampleXforms.times cam.clipPlanes
          ({ s with _clipPlaneIds := ([] : List ℕ) },
            s._clipPlaneIds.foldl rileyDeleteClippingPlane
              (_UpdateRileyCamera s cam r renderBufferSize))
      rw [hl, hdc, hr1c]
      exact List.mem_append_left _
        (List.mem_append_left _ (List.mem_singleton.mpr rfl))
  refine ⟨rfl, hflip, hnoflip, ?_, ?_, ?_⟩
  · exact ⟨_ComputeCameraParams cam s._framing s._policy renderBufferSize,
      hflip ▸ hmodmem⟩
  · intro i sh np xs ts ps hmem
    rcases hchar _ hmem with he | ⟨h, he⟩ | ⟨n, p, he, _⟩
    · cases he
      exact hflip
    · exact RileyCall.noConfusion he
    · exact RileyCall.noConfusion he
  · intro n xs ts p hmem
    rcases hchar _ hmem with he | ⟨h, he⟩ | ⟨n2, p2, he, _⟩
    · exact RileyCall.noConfusion he
    · exact RileyCall.noConfusion he
    · cases he
      exact ⟨hnoflip, rfl⟩

/-- Camera `"C"` with one time sample (the identity transform at time 0) and
one clip plane. -/
def camC8 : HdPrmanCamera :=
  { id := "C", projection := Projection.Perspective,
    horizontalAperture := 0, verticalAperture := 0,
    horizontalApertureOffset := 0, verticalApertureOffset := 0,
    focalLength := 0, fStop := 0, focusDistance := 0,
    clippingRange := ⟨0, 0⟩,
    clipPlanes := [⟨0, 0, 1, -5⟩],
    timeSampleXforms := ⟨[(1 : M4)], [0]⟩ }

/-- A context holding camera `"C"`. -/
def sC8 : HdPrmanCameraContext :=
  { initialContext with _camera := some camC8, _cameraPath := "C" }

/-- Witness for `commit_transform_flips` at camera `"C"` and an empty
renderer log. -/
theorem commit_transform_flips_witness :
    sC8._camera = some camC8 ∧
    (⟨0, []⟩ : RileyState).calls = [] ∧
    _ToRtMatrices camC8.timeSampleXforms true =
      camC8.timeSampleXforms.values.map (fun m => flipZMatrix * m) ∧
    (∃ ps, RileyCall.modifyCamera sC8._cameraId
        (_ComputeProjectionShader camC8.projection) (_ComputeNodeParams camC8)
        (camC8.timeSampleXforms.values.map (fun m => flipZMatrix * m))
        camC8.timeSampleXforms.times ps ∈
        (UpdateRileyCameraAndClipPlanes sC8 ⟨0, []⟩ ⟨4, 3⟩).2.calls) :=
  ⟨rfl, rfl,
    (commit_transform_flips sC8 camC8 ⟨0, []⟩ ⟨4, 3⟩ rfl rfl).2.1,
    (commit_transform_flips sC8 camC8 ⟨0, []⟩ ⟨4, 3⟩ rfl rfl).2.2.2.1⟩
